import Mathlib

/-!
Shallow embedding of `src/derive/src/type_def.rs` from the
`type-metadata` derive crate.

The source file is a procedural-macro generator: it parses a Rust type
declaration (`syn::DeriveInput`) and emits a `HasTypeDef` trait
implementation whose `type_def()` body describes the declared type's
shape.  We embed:

* the fragment of the `syn` abstract syntax tree that the generator
  consumes (`DeriveInput`, `Data`, `Fields`, `Field`, `Variant`,
  discriminant expressions, generics);
* the structured shape of the token streams produced by the `quote!`
  templates (`FieldDefTokens`, `VariantDefTokens`, `DefTokens`,
  `TokenStreamOut`);
* each generation function of the source, one Lean definition per Rust
  function, with the source's names.

External crates (`syn`, `quote`, `proc_macro2`) are modelled
structurally: an input token stream is represented by what `syn::parse2`
yields on it (a parsed `DeriveInput` or a parse error), and a `quote!`
template by the tree of interpolated values it produces.
-/

namespace TypeMetadata

/-- A Rust identifier, kept as its text. -/
def Ident := String
deriving DecidableEq, Repr

/-- A Rust type expression appearing as a field type, kept as its token
text (the generator only re-interpolates it, never inspects it). -/
def RustType := String
deriving DecidableEq, Repr

/-- `syn::Lit`, restricted to the distinction the generator makes:
an integer literal (with its `u64` value, as returned by
`LitInt::value()`) versus any other literal. -/
inductive Lit where
  | int (value : Nat)
  | other (text : String)
deriving DecidableEq, Repr

/-- `syn::Expr`, restricted to the distinction the generator makes:
a literal expression (`Expr::Lit`) versus any other expression. -/
inductive Expr where
  | lit (l : Lit)
  | other (text : String)
deriving DecidableEq, Repr

/-- `syn::Field`: an optional name (present for named fields, absent
for tuple fields) and a type. -/
structure Field where
  ident : Option Ident
  ty : RustType
deriving DecidableEq, Repr

/-- `syn::Fields`: named fields, unnamed (tuple) fields, or unit. -/
inductive Fields where
  | named (fields : List Field)
  | unnamed (fields : List Field)
  | unit
deriving DecidableEq, Repr

/-- `syn::Variant`: an enum variant with its name, fields and optional
explicit discriminant (`Option<(Eq, Expr)>` in `syn`; the `Eq` token
carries no information). -/
structure Variant where
  ident : Ident
  fields : Fields
  discriminant : Option Expr
deriving DecidableEq, Repr

/-- `syn::TypeParamBound`: a trait bound or a lifetime bound, kept as
text. -/
inductive TypeParamBound where
  | traitBound (path : String)
  | lifetime (name : String)
deriving DecidableEq, Repr

/-- `syn::TypeParam`: a type parameter with its bounds list. -/
structure TypeParam where
  ident : Ident
  bounds : List TypeParamBound
deriving DecidableEq, Repr

/-- `syn::GenericParam`: a type, lifetime or const parameter.
`Generics::type_params_mut` iterates over the `typeParam` entries
only. -/
inductive GenericParam where
  | typeParam (tp : TypeParam)
  | lifetimeParam (name : String)
  | constParam (name : String)
deriving DecidableEq, Repr

/-- `syn::Generics`: the parameter list and the optional `where`
clause (kept as text; the generator re-emits it unchanged). -/
structure Generics where
  params : List GenericParam
  whereClause : Option String
deriving DecidableEq, Repr

/-- `syn::DataStruct`: the fields of a struct declaration. -/
structure DataStruct where
  fields : Fields
deriving DecidableEq, Repr

/-- `syn::DataEnum`: the variants of an enum declaration. -/
structure DataEnum where
  variants : List Variant
deriving DecidableEq, Repr

/-- `syn::DataUnion`: the (always named) fields of a union
declaration. -/
structure DataUnion where
  fields : List Field
deriving DecidableEq, Repr

/-- `syn::Data`: the three kinds of type declaration. -/
inductive Data where
  | struct (s : DataStruct)
  | enum (e : DataEnum)
  | union (u : DataUnion)
deriving DecidableEq, Repr

/-- `syn::DeriveInput`: a parsed type declaration. -/
structure DeriveInput where
  ident : Ident
  generics : Generics
  data : Data
deriving DecidableEq, Repr

/-- An input `TokenStream`, modelled by what `syn::parse2` yields on
it: either it parses to a `DeriveInput`, or it fails with a parse
error message. -/
inductive TokenStreamIn where
  | parses (ast : DeriveInput)
  | parseFails (msg : String)
deriving DecidableEq, Repr

/-- `syn::parse2::<DeriveInput>`: the external parser, acting on the
model of input token streams. -/
def syn_parse2 (input : TokenStreamIn) : Except String DeriveInput :=
  match input with
  | .parses ast => .ok ast
  | .parseFails msg => .error msg

/-- The tokens emitted for one field by `generate_fields_def`: either
`_type_metadata::NamedField::new(stringify!(i), <ty as
_type_metadata::Metadata>::meta_type())` or
`_type_metadata::UnnamedField::new(<ty as
_type_metadata::Metadata>::meta_type())`. -/
inductive FieldDefTokens where
  | namedField (name : Ident) (ty : RustType)
  | unnamedField (ty : RustType)
deriving DecidableEq, Repr

/-- The tokens emitted for one C-like enum variant:
`_type_metadata::ClikeEnumVariant::new(stringify!(name),
discriminant)`. -/
structure ClikeEnumVariantTokens where
  name : Ident
  discriminant : Nat
deriving DecidableEq, Repr

/-- The tokens emitted for one variant of a non-C-like enum. -/
inductive VariantDefTokens where
  | enumVariantStruct (name : Ident) (fields : List FieldDefTokens)
  | enumVariantTupleStruct (name : Ident) (fields : List FieldDefTokens)
  | enumVariantUnit (name : Ident)
deriving DecidableEq, Repr

/-- The tokens of the `#def` expression interpolated into the emitted
`type_def()` body: one of the `_type_metadata::TypeDef*` constructor
calls. -/
inductive DefTokens where
  | typeDefStruct (fields : List FieldDefTokens)
  | typeDefTupleStruct (fields : List FieldDefTokens)
  | typeDefTupleStructUnit
  | typeDefClikeEnum (variants : List ClikeEnumVariantTokens)
  | typeDefEnum (variants : List VariantDefTokens)
  | typeDefUnion (fields : List FieldDefTokens)
deriving DecidableEq, Repr

/-- The tokens of the emitted
`impl #impl_generics _type_metadata::HasTypeDef for #ident #ty_generics
#where_clause { fn type_def() -> _type_metadata::TypeDef { #def.into() } }`
block: `split_for_impl` renders the stored generics, so we keep the
generics themselves together with the self ident and the interpolated
definition. -/
structure HasTypeDefImplTokens where
  generics : Generics
  selfIdent : Ident
  typeDef : DefTokens
deriving DecidableEq, Repr

/-- An output `TokenStream`.

Modelled from the spec: `crate::impl_wrapper::wrap` is code of this
repository that is not under `src/`; per the spec the program "emits
the host language's own source code as output", so `wrap` is modelled
as a structural wrapper that embeds, unchanged, the ident, the magic
string and the inner impl tokens it is given.  A failed parse is
rendered by `Err::to_compile_error` as `compile_error!` tokens carrying
the error message. -/
inductive TokenStreamOut where
  | wrapped (ident : Ident) (magic : String) (impl : HasTypeDefImplTokens)
  | compileError (msg : String)
deriving DecidableEq, Repr

/-- `crate::impl_wrapper::wrap` (modelled, see `TokenStreamOut`). -/
def wrap (ident : Ident) (magic : String) (impl : HasTypeDefImplTokens) :
    TokenStreamOut :=
  .wrapped ident magic impl

/-- `generate_fields_def`: one entry per field, named fields becoming
`NamedField::new(stringify!(i), meta_type)` and unnamed fields
`UnnamedField::new(meta_type)`. -/
def generate_fields_def (fields : List Field) : List FieldDefTokens :=
  fields.map fun f =>
    match f.ident with
    | some i => .namedField i f.ty
    | none => .unnamedField f.ty

/-- `generate_struct_def`: dispatch on the struct's fields kind. -/
def generate_struct_def (data_struct : DataStruct) : DefTokens :=
  match data_struct.fields with
  | .named fs => .typeDefStruct (generate_fields_def fs)
  | .unnamed fs => .typeDefTupleStruct (generate_fields_def fs)
  | .unit => .typeDefTupleStructUnit

/-- `generate_c_like_enum_def`: enumerate the variants; a variant's
discriminant is its explicit discriminant when that is an integer
literal expression, and its zero-based index otherwise. -/
def generate_c_like_enum_def (variants : List Variant) : DefTokens :=
  .typeDefClikeEnum <| variants.enum.map fun iv =>
    let v := iv.2
    let discriminant :=
      match v.discriminant with
      | some (.lit (.int lit_int)) => lit_int
      | _ => iv.1
    { name := v.ident, discriminant := discriminant }

/-- `is_c_like_enum`: any variant has an explicit discriminant, or all
variants are unit. -/
def is_c_like_enum (variants : List Variant) : Bool :=
  variants.any (fun v => v.discriminant.isSome) ||
    variants.all (fun v => v.fields == Fields.unit)

/-- `generate_enum_def`: C-like enums go through
`generate_c_like_enum_def`; otherwise each variant is emitted according
to its fields kind and the list is wrapped in `TypeDefEnum::new`. -/
def generate_enum_def (data_enum : DataEnum) : DefTokens :=
  let variants := data_enum.variants
  if is_c_like_enum variants then
    generate_c_like_enum_def variants
  else
    .typeDefEnum <| variants.map fun v =>
      match v.fields with
      | .named fs => .enumVariantStruct v.ident (generate_fields_def fs)
      | .unnamed fs => .enumVariantTupleStruct v.ident (generate_fields_def fs)
      | .unit => .enumVariantUnit v.ident

/-- `generate_union_def`: a union's named fields wrapped in
`TypeDefUnion::new`. -/
def generate_union_def (data_union : DataUnion) : DefTokens :=
  .typeDefUnion (generate_fields_def data_union.fields)

/-- The body of the `type_params_mut().for_each(...)` mutation in
`generate_impl`: push the `_type_metadata::Metadata` bound, then push
the `'static` bound, onto each type parameter; other generic
parameters are untouched. -/
def push_metadata_bounds (p : GenericParam) : GenericParam :=
  match p with
  | .typeParam tp =>
      .typeParam { tp with
        bounds :=
          (tp.bounds.concat (.traitBound "_type_metadata::Metadata")).concat
            (.lifetime "'static") }
  | p => p

/-- `generate_impl`: parse the input (propagating the parse error with
`?`), add the `Metadata` and `'static` bounds to every type parameter,
build the `#def` expression by dispatch on the declaration kind, and
wrap the emitted `HasTypeDef` impl. -/
def generate_impl (input : TokenStreamIn) : Except String TokenStreamOut := do
  let ast ← syn_parse2 input
  let ast := { ast with
    generics := { ast.generics with
      params := ast.generics.params.map push_metadata_bounds } }
  let def_ :=
    match ast.data with
    | .struct s => generate_struct_def s
    | .enum e => generate_enum_def e
    | .union u => generate_union_def u
  let has_type_def_impl : HasTypeDefImplTokens :=
    { generics := ast.generics, selfIdent := ast.ident, typeDef := def_ }
  return wrap ast.ident "HAS_TYPE_DEF" has_type_def_impl

/-- `generate`: run `generate_impl`, turning a parse error into
`compile_error!` tokens. -/
def generate (input : TokenStreamIn) : TokenStreamOut :=
  match generate_impl input with
  | .ok output => output
  | .error err => .compileError err

end TypeMetadata

namespace TypeMetadata

/-- Example inputs used by the witnesses below. -/
def exStructAst : DeriveInput :=
  { ident := "Point"
  , generics := { params := [], whereClause := none }
  , data := .struct ⟨.named [⟨some "x", "i32"⟩, ⟨some "y", "i32"⟩]⟩ }

def exFields : List Field := [⟨some "x", "i32"⟩, ⟨none, "u8"⟩]

def exMixedEnum : DataEnum :=
  ⟨[ ⟨"A", .unit, some (.other "FOO")⟩
   , ⟨"B", .unit, some (.lit (.int 7))⟩
   , ⟨"C", .unit, none⟩ ]⟩

def exDataEnum : DataEnum :=
  ⟨[⟨"A", .unnamed [⟨none, "u8"⟩], none⟩, ⟨"B", .unit, none⟩]⟩

def exClikeEnum : DataEnum :=
  ⟨[⟨"On", .unit, none⟩, ⟨"Off", .unit, none⟩]⟩

def exGenAst : DeriveInput :=
  { ident := "Wrap"
  , generics :=
      { params :=
          [ .lifetimeParam "'a"
          , .typeParam ⟨"T", [.traitBound "Clone"]⟩ ]
      , whereClause := none }
  , data := .struct ⟨.unit⟩ }

/-- `is_c_like_enum` holds exactly when some variant has an explicit
discriminant or every variant has unit fields. -/
theorem is_c_like_enum_iff (variants : List Variant) :
    is_c_like_enum variants = true ↔
      ((∃ v ∈ variants, v.discriminant.isSome = true) ∨
        (∀ v ∈ variants, v.fields = Fields.unit)) := by
  simp [is_c_like_enum, List.any_eq_true, List.all_eq_true, beq_iff_eq]

/-- When `is_c_like_enum` rejects, `generate_enum_def` takes the
variant-by-variant branch. -/
theorem generate_enum_def_of_not_c_like (e : DataEnum)
    (h : is_c_like_enum e.variants = false) :
    generate_enum_def e =
      .typeDefEnum (e.variants.map fun v =>
        match v.fields with
        | .named fs =>
            VariantDefTokens.enumVariantStruct v.ident (generate_fields_def fs)
        | .unnamed fs =>
            VariantDefTokens.enumVariantTupleStruct v.ident
              (generate_fields_def fs)
        | .unit => VariantDefTokens.enumVariantUnit v.ident) := by
  simp only [generate_enum_def, h, Bool.false_eq_true, if_false]

/-- When `is_c_like_enum` accepts, `generate_enum_def` defers to
`generate_c_like_enum_def`. -/
theorem generate_enum_def_of_c_like (e : DataEnum)
    (h : is_c_like_enum e.variants = true) :
    generate_enum_def e = generate_c_like_enum_def e.variants := by
  simp only [generate_enum_def, h, if_true]

/-- C1: on every successfully parsed type declaration, `generate_impl`
emits a wrapped `HasTypeDef` impl for the declared ident whose
`type_def()` body is the declaration kind's definition; all three
kinds — struct, enum, union — are handled. -/
theorem generate_impl_handles_all_kinds (ast : DeriveInput) :
    ∃ impl : HasTypeDefImplTokens,
      generate_impl (.parses ast) =
        .ok (.wrapped ast.ident "HAS_TYPE_DEF" impl) ∧
      impl.selfIdent = ast.ident ∧
      (∀ s, ast.data = .struct s → impl.typeDef = generate_struct_def s) ∧
      (∀ e, ast.data = .enum e → impl.typeDef = generate_enum_def e) ∧
      (∀ u, ast.data = .union u → impl.typeDef = generate_union_def u) := by
  refine ⟨_, rfl, rfl, ?_, ?_, ?_⟩ <;>
    intro x hx <;> simp only [generate_impl, syn_parse2, hx]

/-- Witness for C1 at a concrete struct declaration. -/
theorem generate_impl_handles_all_kinds_witness :
    ∃ impl : HasTypeDefImplTokens,
      generate_impl (.parses exStructAst) =
        .ok (.wrapped "Point" "HAS_TYPE_DEF" impl) ∧
      impl.typeDef =
        generate_struct_def ⟨.named [⟨some "x", "i32"⟩, ⟨some "y", "i32"⟩]⟩ := by
  obtain ⟨impl, h1, _, h3, _, _⟩ := generate_impl_handles_all_kinds exStructAst
  exact ⟨impl, h1, h3 _ rfl⟩

/-- C2: `generate_fields_def` yields exactly one entry per field, in
declaration order; a named field becomes `NamedField::new` with its
name and its type's `meta_type`, an unnamed field becomes
`UnnamedField::new` with its type's `meta_type`. -/
theorem generate_fields_def_pointwise (fields : List Field) :
    (generate_fields_def fields).length = fields.length ∧
    ∀ (i : Nat) (f : Field), fields[i]? = some f →
      (generate_fields_def fields)[i]? =
        some (match f.ident with
          | some n => FieldDefTokens.namedField n f.ty
          | none => FieldDefTokens.unnamedField f.ty) := by
  constructor
  · exact List.length_map _ _
  · intro i f h
    unfold generate_fields_def
    rw [List.getElem?_map, h]
    rfl

/-- Witness for C2 at a concrete field list. -/
theorem generate_fields_def_pointwise_witness :
    (generate_fields_def exFields).length = 2 ∧
    (generate_fields_def exFields)[0]? =
      some (FieldDefTokens.namedField "x" "i32") ∧
    (generate_fields_def exFields)[1]? =
      some (FieldDefTokens.unnamedField "u8") :=
  ⟨(generate_fields_def_pointwise exFields).1,
   (generate_fields_def_pointwise exFields).2 0 ⟨some "x", "i32"⟩ rfl,
   (generate_fields_def_pointwise exFields).2 1 ⟨none, "u8"⟩ rfl⟩

/-- C3: a struct with named fields becomes `TypeDefStruct::new`, a
tuple struct becomes `TypeDefTupleStruct::new`, a unit struct becomes
`TypeDefTupleStruct::unit()`, each over its field descriptions. -/
theorem generate_struct_def_shape (s : DataStruct) :
    (∀ fs, s.fields = .named fs →
      generate_struct_def s = .typeDefStruct (generate_fields_def fs)) ∧
    (∀ fs, s.fields = .unnamed fs →
      generate_struct_def s = .typeDefTupleStruct (generate_fields_def fs)) ∧
    (s.fields = .unit → generate_struct_def s = .typeDefTupleStructUnit) := by
  refine ⟨?_, ?_, ?_⟩ <;> intros <;> simp only [generate_struct_def, *]

/-- Witness for C3 at a concrete unit struct. -/
theorem generate_struct_def_shape_witness :
    generate_struct_def ⟨.unit⟩ = .typeDefTupleStructUnit :=
  (generate_struct_def_shape ⟨.unit⟩).2.2 rfl

/-- C4: for an enum that is not C-like, each variant is emitted in
declaration order as `EnumVariantStruct::new`,
`EnumVariantTupleStruct::new` or `EnumVariantUnit::new` according to
its fields kind, and the list is wrapped in `TypeDefEnum::new`. -/
theorem generate_enum_def_non_c_like (e : DataEnum)
    (h : is_c_like_enum e.variants = false) :
    ∃ vs : List VariantDefTokens,
      generate_enum_def e = .typeDefEnum vs ∧
      vs.length = e.variants.length ∧
      ∀ (i : Nat) (v : Variant), e.variants[i]? = some v →
        vs[i]? = some (match v.fields with
          | .named fs =>
              VariantDefTokens.enumVariantStruct v.ident (generate_fields_def fs)
          | .unnamed fs =>
              VariantDefTokens.enumVariantTupleStruct v.ident
                (generate_fields_def fs)
          | .unit => VariantDefTokens.enumVariantUnit v.ident) := by
  refine ⟨_, generate_enum_def_of_not_c_like e h, List.length_map _ _, ?_⟩
  intro i v hv
  rw [List.getElem?_map, hv]
  rfl

/-- Witness for C4 at a concrete non-C-like enum. -/
theorem generate_enum_def_non_c_like_witness :
    is_c_like_enum exDataEnum.variants = false ∧
    ∃ vs : List VariantDefTokens,
      generate_enum_def exDataEnum = .typeDefEnum vs ∧
      vs[0]? = some (.enumVariantTupleStruct "A" [.unnamedField "u8"]) ∧
      vs[1]? = some (.enumVariantUnit "B") := by
  refine ⟨by decide, ?_⟩
  obtain ⟨vs, h1, _, h3⟩ := generate_enum_def_non_c_like exDataEnum (by decide)
  exact ⟨vs, h1, h3 0 _ rfl, h3 1 _ rfl⟩

/-- C5: `generate` is a pure total function: equal inputs give equal
outputs; a parse failure is rendered as `compile_error!` tokens with
the parse error's message; a successful parse yields the wrapped
`HasTypeDef` impl. -/
theorem generate_deterministic_total (input : TokenStreamIn) :
    (∀ input2, input = input2 → generate input = generate input2) ∧
    (∀ msg, input = .parseFails msg →
      generate input = .compileError msg) ∧
    (∀ ast, input = .parses ast →
      ∃ impl, generate input = .wrapped ast.ident "HAS_TYPE_DEF" impl) := by
  refine ⟨fun _ h => by rw [h], fun msg h => by subst h; rfl,
    fun ast h => by subst h; exact ⟨_, rfl⟩⟩

/-- Witness for C5 at a concrete failing parse. -/
theorem generate_deterministic_total_witness :
    generate (.parseFails "expected one of: struct, enum, union") =
      .compileError "expected one of: struct, enum, union" :=
  (generate_deterministic_total _).2.1 _ rfl

/-- C6: `generate_impl` returns an error exactly when `syn::parse2`
fails (with the same error), and on success its output is the emitted
impl token stream. -/
theorem generate_impl_err_iff_parse_err (input : TokenStreamIn) :
    (∀ e, generate_impl input = .error e ↔ syn_parse2 input = .error e) ∧
    (∀ out, generate_impl input = .ok out →
      ∃ impl, out = .wrapped impl.selfIdent "HAS_TYPE_DEF" impl) := by
  cases input with
  | parses ast =>
      refine ⟨fun e => ?_, fun out h => ?_⟩
      · simp [generate_impl, syn_parse2]
      · have hgen : generate_impl (.parses ast) =
            .ok (.wrapped ast.ident "HAS_TYPE_DEF"
              { generics :=
                  { params := ast.generics.params.map push_metadata_bounds
                  , whereClause := ast.generics.whereClause }
              , selfIdent := ast.ident
              , typeDef :=
                  match ast.data with
                  | .struct s => generate_struct_def s
                  | .enum e => generate_enum_def e
                  | .union u => generate_union_def u }) := rfl
        rw [hgen] at h
        cases h
        exact ⟨{ generics :=
                    { params := ast.generics.params.map push_metadata_bounds
                    , whereClause := ast.generics.whereClause }
                , selfIdent := ast.ident
                , typeDef :=
                    match ast.data with
                    | .struct s => generate_struct_def s
                    | .enum e => generate_enum_def e
                    | .union u => generate_union_def u }, rfl⟩
  | parseFails msg =>
      refine ⟨fun e => ?_, fun out h => ?_⟩
      · simp [generate_impl, syn_parse2]
      · cases h

/-- Witness for C6 at a concrete failing parse. -/
theorem generate_impl_err_iff_parse_err_witness :
    generate_impl (.parseFails "unexpected token") = .error "unexpected token" :=
  ((generate_impl_err_iff_parse_err _).1 _).mpr rfl

/-- C7: an enum is emitted as `TypeDefClikeEnum` if and only if some
variant has an explicit discriminant or every variant has unit
fields. -/
theorem enum_emitted_c_like_iff (e : DataEnum) :
    (∃ vs, generate_enum_def e = .typeDefClikeEnum vs) ↔
      ((∃ v ∈ e.variants, v.discriminant.isSome = true) ∨
        (∀ v ∈ e.variants, v.fields = Fields.unit)) := by
  rw [← is_c_like_enum_iff]
  constructor
  · rintro ⟨vs, hvs⟩
    cases h : is_c_like_enum e.variants with
    | true => rfl
    | false =>
        rw [generate_enum_def_of_not_c_like e h] at hvs
        exact DefTokens.noConfusion hvs
  · intro h
    rw [generate_enum_def_of_c_like e h]
    exact ⟨_, rfl⟩

/-- Witness for C7 at a concrete all-unit enum. -/
theorem enum_emitted_c_like_iff_witness :
    ∃ vs, generate_enum_def exClikeEnum = .typeDefClikeEnum vs :=
  (enum_emitted_c_like_iff exClikeEnum).mpr (Or.inr (by decide))

/-- C8: for a C-like-emitted enum, the i-th emitted `ClikeEnumVariant`
carries the variant's name and, as discriminant, the explicit integer
literal value when present, and the zero-based index otherwise (also
when an explicit discriminant is not an integer literal). -/
theorem clike_enum_discriminants (e : DataEnum)
    (h : is_c_like_enum e.variants = true) :
    ∃ vs : List ClikeEnumVariantTokens,
      generate_enum_def e = .typeDefClikeEnum vs ∧
      vs.length = e.variants.length ∧
      ∀ (i : Nat) (v : Variant), e.variants[i]? = some v →
        vs[i]? = some
          { name := v.ident
          , discriminant :=
              match v.discriminant with
              | some (.lit (.int n)) => n
              | _ => i } := by
  rw [generate_enum_def_of_c_like e h]
  unfold generate_c_like_enum_def
  refine ⟨_, rfl, ?_, ?_⟩
  · simp
  · intro i v hv
    rw [List.getElem?_map, List.getElem?_enum, hv]
    rfl

/-- Witness for C8: a non-integer-literal discriminant falls back to
the index, an integer literal is kept, no discriminant gives the
index. -/
theorem clike_enum_discriminants_witness :
    ∃ vs : List ClikeEnumVariantTokens,
      generate_enum_def exMixedEnum = .typeDefClikeEnum vs ∧
      vs[0]? = some ⟨"A", 0⟩ ∧
      vs[1]? = some ⟨"B", 7⟩ ∧
      vs[2]? = some ⟨"C", 2⟩ := by
  obtain ⟨vs, h1, _, h3⟩ := clike_enum_discriminants exMixedEnum (by decide)
  exact ⟨vs, h1, h3 0 _ rfl, h3 1 _ rfl, h3 2 _ rfl⟩

/-- C9: in the generated impl, every type parameter carries its
original bounds followed by exactly `_type_metadata::Metadata` and
`'static`; non-type parameters, the parameter count and the where
clause are unchanged. -/
theorem metadata_bounds_added (ast : DeriveInput) :
    ∃ impl : HasTypeDefImplTokens,
      generate_impl (.parses ast) =
        .ok (.wrapped ast.ident "HAS_TYPE_DEF" impl) ∧
      impl.generics.whereClause = ast.generics.whereClause ∧
      impl.generics.params.length = ast.generics.params.length ∧
      (∀ (i : Nat) (tp : TypeParam),
        ast.generics.params[i]? = some (.typeParam tp) →
        impl.generics.params[i]? = some (.typeParam { tp with
          bounds := tp.bounds ++
            [.traitBound "_type_metadata::Metadata", .lifetime "'static"] })) ∧
      (∀ (i : Nat) (p : GenericParam), ast.generics.params[i]? = some p →
        (∀ (tp : TypeParam), p ≠ .typeParam tp) →
        impl.generics.params[i]? = some p) := by
  refine ⟨_, rfl, rfl, List.length_map _ _, ?_, ?_⟩
  · intro i tp h
    rw [List.getElem?_map, h]
    simp [push_metadata_bounds, List.concat_eq_append, List.append_assoc]
  · intro i p h hne
    rw [List.getElem?_map, h]
    cases p with
    | typeParam tp => exact absurd rfl (hne tp)
    | lifetimeParam n => rfl
    | constParam n => rfl

/-- Witness for C9 at a concrete generic struct with a lifetime and a
bounded type parameter. -/
theorem metadata_bounds_added_witness :
    ∃ impl : HasTypeDefImplTokens,
      generate_impl (.parses exGenAst) =
        .ok (.wrapped "Wrap" "HAS_TYPE_DEF" impl) ∧
      impl.generics.params[1]? = some (.typeParam
        ⟨"T", [ .traitBound "Clone"
              , .traitBound "_type_metadata::Metadata"
              , .lifetime "'static" ]⟩) ∧
      impl.generics.params[0]? = some (.lifetimeParam "'a") := by
  obtain ⟨impl, h1, _, _, h4, h5⟩ := metadata_bounds_added exGenAst
  exact ⟨impl, h1, h4 1 _ rfl, h5 0 _ rfl (fun tp h => nomatch h)⟩

end TypeMetadata
